import Mathlib

/-!
# Verification of the quote-generator backend (`src/server.js`, latest revision)

Shallow embedding of the Express route handlers of `src/server.js`
(the consolidated revision, the one the spec's endpoint table describes)
together with the MongoDB operations they issue and the external
collaborators they call (bcrypt, jsonwebtoken, the OpenAI chat API).

Modelling conventions:
* MongoDB documents become Lean structures; a collection is a `List` of
  documents in insertion order.  `updateOne` updates the first matching
  document; `modifiedCount` is 1 exactly when the applied update changed
  that document; with `upsert : true` a non-match inserts a new document
  built from the filter's equality fields and the update operators.
* bcrypt is an external library: the handlers are parametric in the hash
  function `bhash` it provides for the call (salt fixed per call);
  `bcrypt.compare p stored` holds exactly when `stored` is the hash of `p`.
* A JSON web token is modelled as its decoded claims (`userId`, `iat`,
  `exp`) plus a signature value; `jwt.sign` with `expiresIn: '1h'` sets
  `exp = iat + 3600` (seconds) and signs with the server secret;
  `jwt.verify` accepts exactly a correctly signed, unexpired token.
  On the wire a token is a string; `decodeToken` parses it.
* User ids (`_id` / the JWT `userId` claim / the body field `userID`) are
  modelled as `Nat`.
* Each handler is a pure function of its inputs (request body, the
  middleware-supplied authenticated user id, the stores, the clock) to a
  result record holding the HTTP status, the response payload and the new
  store; where a claim is about the storage-layer operations issued, the
  handler also returns the trace of store operations it performed.
-/

/-- A quote entry: the `{category, text}` sub-documents stored in the
`quotes` array field (see `quoteSchema` in `src/mongoSchemas.js` and the
bodies handled by `/quotes` in `src/server.js`). -/
structure QuoteEntry where
  category : String
  text : String
deriving DecidableEq

/-- A per-user quote document as manipulated by the `/quotes` handlers:
filtered by `userID`, holding the `quotes` array and the `updatedAt`
timestamp that the handlers `$set`. -/
structure QuoteDoc where
  userID : Nat
  quotes : List QuoteEntry
  updatedAt : Nat
deriving DecidableEq

/-- The `Quote` MongoDB collection, in insertion order. -/
abbrev QuoteDb := List QuoteDoc

/-- A stored user record (`userSchema` in `src/mongoSchemas.js`):
server-generated `_id`, unique `email`, `password` hash. -/
structure UserRec where
  id : Nat
  email : String
  password : String
deriving DecidableEq

/-- The `User` MongoDB collection, in insertion order. -/
abbrev UserDb := List UserRec

/-- `bcrypt.compare plaintext stored` (external library): true exactly when
`stored` is the bcrypt hash of `plaintext` under the hash function `bhash`
in use (the salt being fixed by the stored hash). -/
def bcryptCompare (bhash : String → String) (plaintext stored : String) : Bool :=
  stored == bhash plaintext

/-- The signature `jwt.sign` computes over the claims with the server
secret, modelled as an injective pairing of secret and claims. -/
def macSig (secret uid iat exp : Nat) : Nat :=
  Nat.pair secret (Nat.pair uid (Nat.pair iat exp))

/-- A signed session token: the claims `jwt.sign({userId: ...})` embeds
(`userId`, issued-at `iat`, expiry `exp`) plus the signature. -/
structure Token where
  userId : Nat
  iat : Nat
  exp : Nat
  sig : Nat
deriving DecidableEq

/-- `jwt.sign({userId}, secret, {expiresIn: '1h'})` at clock time `iat`
(seconds): expiry is issue time plus the fixed 3600-second TTL. -/
def jwtSign (secret iat uid : Nat) : Token :=
  { userId := uid, iat := iat, exp := iat + 3600
    sig := macSig secret uid iat (iat + 3600) }

/-- `jwt.verify` on decoded claims at clock time `now`: succeeds with the
`userId` claim exactly when the signature matches the secret and the
expiry has not elapsed (jsonwebtoken rejects as expired once
`now >= exp`). -/
def jwtVerifyTok (secret now : Nat) (t : Token) : Option Nat :=
  if t.sig = macSig secret t.userId t.iat t.exp ∧ now < t.exp then
    some t.userId
  else
    none

/-- Split a character list at every occurrence of the separator, keeping
empty pieces — the behaviour of JavaScript `String.prototype.split` with a
single-character separator. -/
def splitCharAux (sep : Char) : List Char → List (List Char)
  | [] => [[]]
  | c :: cs =>
    let r := splitCharAux sep cs
    if c = sep then [] :: r
    else
      match r with
      | [] => [[c]]
      | s :: ss => (c :: s) :: ss

/-- JavaScript `s.split(sep)` for a single-character separator. -/
def splitChar (sep : Char) (s : String) : List String :=
  (splitCharAux sep s.toList).map (fun l => String.mk l)

/-- Parse a decimal numeral; any other string (including the empty one)
fails. -/
def parseNat? (s : String) : Option Nat :=
  match s.toList with
  | [] => none
  | l =>
    if l.all (fun c => c.isDigit) then
      some (l.foldl (fun acc c => acc * 10 + (c.toNat - 48)) 0)
    else none

/-- Parse a token string into its claims and signature (the wire format of
the signed token); any other string is malformed. -/
def decodeToken (s : String) : Option Token :=
  match splitChar '.' s with
  | [a, b, c, d] =>
    match parseNat? a, parseNat? b, parseNat? c, parseNat? d with
    | some uid, some iat, some exp, some sg => some ⟨uid, iat, exp, sg⟩
    | _, _, _, _ => none
  | _ => none

/-- `jwt.verify(token, secret, cb)` on a token string: errors (yielding
`none`) on a malformed string, a bad signature or an elapsed expiry. -/
def jwtVerifyStr (secret now : Nat) (s : String) : Option Nat :=
  (decodeToken s).bind (jwtVerifyTok secret now)

/-- Outcome of the `authenticateToken` middleware: either an early
response with a status code, or control passed to the route handler with
`req.userId` set. -/
inductive AuthOutcome where
  | deny (status : Nat)
  | allow (userId : Nat)
deriving DecidableEq

/-- The `authenticateToken` middleware of `src/server.js`: a missing (or
empty, hence falsy) `Authorization` header yields 401; a header whose
second space-separated word is absent or empty yields 401; a token that
fails `jwt.verify` yields 403; otherwise the request proceeds with the
token's `userId` claim. -/
def authenticateToken (secret now : Nat) (header : Option String) : AuthOutcome :=
  match header with
  | none => .deny 401
  | some h =>
    if h = "" then .deny 401
    else
      match (splitChar ' ' h)[1]? with
      | none => .deny 401
      | some tok =>
        if tok = "" then .deny 401
        else
          match jwtVerifyStr secret now tok with
          | none => .deny 403
          | some uid => .allow uid

/-- Result of a request to the protected route `GET /protected`:
status, the `userId` echoed on success, and whether the route handler
behind the middleware ran at all. -/
structure ProtectedResult where
  status : Nat
  userId : Option Nat
  handlerRan : Bool
deriving DecidableEq

/-- `GET /protected`: the `authenticateToken` middleware followed by the
handler answering `{message: 'Access granted', userId}`. -/
def protectedRoute (secret now : Nat) (header : Option String) : ProtectedResult :=
  match authenticateToken secret now header with
  | .deny s => ⟨s, none, false⟩
  | .allow uid => ⟨200, some uid, true⟩

/-- Result of `POST /signup`. -/
structure SignupResult where
  status : Nat
  token : Option Token
  userId : Option Nat
  db : UserDb
deriving DecidableEq

/-- The `POST /signup` handler: `User.findOne({email})`; an existing user
yields 400 `Email already in use`; otherwise the password is hashed with
bcrypt, the user saved (MongoDB assigns the fresh `_id` `newId`) and a
1-hour token issued for auto-login with status 201. -/
def signup (bhash : String → String) (secret now newId : Nat) (db : UserDb)
    (email password : String) : SignupResult :=
  match db.find? (fun u => u.email == email) with
  | some _ => ⟨400, none, none, db⟩
  | none =>
    let user : UserRec := ⟨newId, email, bhash password⟩
    ⟨201, some (jwtSign secret now newId), some newId, db ++ [user]⟩

/-- Result of `POST /login`. -/
structure LoginResult where
  status : Nat
  token : Option Token
  userId : Option Nat
deriving DecidableEq

/-- The `POST /login` handler: `User.findOne({email})`; no user yields
401 `Invalid credentials`; a failing `bcrypt.compare` yields 401
`Invalid password`; otherwise a fresh 1-hour token is issued. -/
def login (bhash : String → String) (secret now : Nat) (db : UserDb)
    (email password : String) : LoginResult :=
  match db.find? (fun u => u.email == email) with
  | none => ⟨401, none, none⟩
  | some u =>
    if bcryptCompare bhash password u.password then
      ⟨200, some (jwtSign secret now u.id), some u.id⟩
    else
      ⟨401, none, none⟩

/-- A chat-completion request as the `/ai/quote` handler builds it for
`openaiClient.chat.completions.create`: the model name, the single user
message, and the output-length bound if any is requested (the handler
passes no `max_tokens`, so none is). -/
structure ChatRequest where
  model : String
  content : String
  maxTokens : Option Nat
deriving DecidableEq

/-- Result of `POST /ai/quote`: status, the returned quote, and the trace
of chat-completion requests issued to the external service. -/
structure AiQuoteResult where
  status : Nat
  quote : Option String
  requests : List ChatRequest
deriving DecidableEq

/-- The `POST /ai/quote` handler: a missing (or empty, hence falsy)
`category` yields 400; otherwise one chat-completion request is issued
with the fixed instruction template and `choices[0].message.content` is
returned verbatim.  `llm` is the external service's text for a request. -/
def aiQuote (llm : ChatRequest → String) (category : Option String) : AiQuoteResult :=
  match category with
  | none => ⟨400, none, []⟩
  | some c =>
    if c = "" then ⟨400, none, []⟩
    else
      let req : ChatRequest :=
        ⟨"gpt-4o-mini", "Generate an inspirational quote about " ++ c, none⟩
      ⟨200, some (llm req), [req]⟩

/-- A storage-layer operation on the `Quote` collection, as issued by the
`/quotes` handlers: an atomic `$push`/`$each` append (with upsert), an
atomic `$pull` removal, or a read. -/
inductive StoreOp where
  | pushEach (userID : Nat) (entries : List QuoteEntry)
  | pullMatch (userID : Nat) (target : QuoteEntry)
  | findByUser (userID : Nat)
deriving DecidableEq

/-- `Quote.updateOne({userID}, {$push: {quotes: {$each: qs}}, $set:
{updatedAt: now}}, {upsert: true})`: the first document matching `userID`
gets `qs` appended to its `quotes` array and its `updatedAt` set; if none
matches, a new document is inserted from the filter and the operators.
Returns the new collection and `modifiedCount` (1 exactly when an
existing document changed; an upsert insertion counts 0). -/
def pushEachUpsert (uid : Nat) (qs : List QuoteEntry) (now : Nat) :
    QuoteDb → QuoteDb × Nat
  | [] => ([⟨uid, qs, now⟩], 0)
  | d :: ds =>
    if d.userID = uid then
      let d' : QuoteDoc := ⟨d.userID, d.quotes ++ qs, now⟩
      (d' :: ds, if d' = d then 0 else 1)
    else
      let r := pushEachUpsert uid qs now ds
      (d :: r.1, r.2)

/-- Whether a stored entry matches the `$pull` condition
`{category: target.category, text: target.text}`. -/
def entryMatches (target q : QuoteEntry) : Bool :=
  q.category == target.category && q.text == target.text

/-- `Quote.updateOne({userID}, {$pull: {quotes: {category, text}}, $set:
{updatedAt: now}})` (no upsert): the first document matching `userID` has
every matching entry removed from `quotes` and its `updatedAt` set.
Returns the new collection and `modifiedCount`. -/
def pullMatching (uid : Nat) (target : QuoteEntry) (now : Nat) :
    QuoteDb → QuoteDb × Nat
  | [] => ([], 0)
  | d :: ds =>
    if d.userID = uid then
      let d' : QuoteDoc := ⟨d.userID, d.quotes.filter (fun q => !entryMatches target q), now⟩
      (d' :: ds, if d' = d then 0 else 1)
    else
      let r := pullMatching uid target now ds
      (d :: r.1, r.2)

/-- Request body of `POST /quotes`: `{quotes, userID}`; `quotes = none`
models a body whose `quotes` field is not an array. -/
structure PostQuotesBody where
  userID : Nat
  quotes : Option (List QuoteEntry)

/-- Result of `POST /quotes`. -/
structure PostQuotesResult where
  status : Nat
  db : QuoteDb
  ops : List StoreOp
deriving DecidableEq

/-- The `POST /quotes` handler: rejects a non-array `quotes` with 400,
otherwise issues the single upserting `$push`/`$each` update for the
body's `userID` and answers 200.  `authUid` is `req.userId` from the
middleware — the handler never reads it. -/
def postQuotes (authUid : Nat) (body : PostQuotesBody) (db : QuoteDb) (now : Nat) :
    PostQuotesResult :=
  match body.quotes with
  | none => ⟨400, db, []⟩
  | some qs =>
    let r := pushEachUpsert body.userID qs now db
    ⟨200, r.1, [StoreOp.pushEach body.userID qs]⟩

/-- Request body of `DELETE /quotes`: `{userID, quoteToDelete}`. -/
structure DeleteQuotesBody where
  userID : Nat
  quoteToDelete : QuoteEntry

/-- Result of `DELETE /quotes`. -/
structure DeleteQuotesResult where
  status : Nat
  message : String
  db : QuoteDb
  ops : List StoreOp
deriving DecidableEq

/-- The `DELETE /quotes` handler: issues the `$pull` update (with the
`$set` of `updatedAt`) for the body's `userID`, answers 404
`Quote not found` when `modifiedCount` is 0 and 200
`Quote deleted successfully` otherwise.  `authUid` is `req.userId` from
the middleware — the handler never reads it. -/
def deleteQuotes (authUid : Nat) (body : DeleteQuotesBody) (db : QuoteDb) (now : Nat) :
    DeleteQuotesResult :=
  let r := pullMatching body.userID body.quoteToDelete now db
  if r.2 = 0 then
    ⟨404, "Quote not found", r.1, [StoreOp.pullMatch body.userID body.quoteToDelete]⟩
  else
    ⟨200, "Quote deleted successfully", r.1, [StoreOp.pullMatch body.userID body.quoteToDelete]⟩

/-- Result of `GET /quotes`. -/
structure GetQuotesResult where
  status : Nat
  quotes : List QuoteEntry
deriving DecidableEq

/-- The `GET /quotes` handler: `Quote.find({userID: req.userId})` — the
token-derived id from the middleware — then an empty array when no
document exists, otherwise the first document's `quotes` array. -/
def getQuotes (authUid : Nat) (db : QuoteDb) : GetQuotesResult :=
  match db.filter (fun d => d.userID == authUid) with
  | [] => ⟨200, []⟩
  | d :: _ => ⟨200, d.quotes⟩

/-- Run a sequence of signup requests `(email, password)` against a user
store, threading the freshly assigned `_id` counter. -/
def runSignups (bhash : String → String) (secret now : Nat) :
    UserDb × Nat → List (String × String) → UserDb × Nat
  | st, [] => st
  | (db, nid), (e, p) :: rs =>
    runSignups bhash secret now ((signup bhash secret now nid db e p).db, nid + 1) rs

/-- No two stored users share an email. -/
def distinctEmails (db : UserDb) : Prop :=
  (db.map (fun u => u.email)).Nodup

/-- First stored quote document for a user id. -/
def findDoc (db : QuoteDb) (uid : Nat) : Option QuoteDoc :=
  db.find? (fun d => d.userID == uid)

/-! ## Helper lemmas about the modelled MongoDB operations -/

lemma pushEachUpsert_fresh (uid : Nat) (qs : List QuoteEntry) (now : Nat) :
    ∀ db : QuoteDb, (∀ d ∈ db, d.userID ≠ uid) →
      pushEachUpsert uid qs now db = (db ++ [⟨uid, qs, now⟩], 0)
  | [], _ => rfl
  | d :: ds, h => by
    have hd : d.userID ≠ uid := h d (List.mem_cons_self d ds)
    have ih := pushEachUpsert_fresh uid qs now ds
      (fun x hx => h x (List.mem_cons_of_mem d hx))
    simp [pushEachUpsert, hd, ih]

lemma findDoc_append_fresh (uid : Nat) (doc : QuoteDoc) (hdoc : doc.userID = uid) :
    ∀ db : QuoteDb, (∀ d ∈ db, d.userID ≠ uid) →
      findDoc (db ++ [doc]) uid = some doc
  | [], _ => by simp [findDoc, List.find?, hdoc]
  | d :: ds, h => by
    have hd : d.userID ≠ uid := h d (List.mem_cons_self d ds)
    have ih := findDoc_append_fresh uid doc hdoc ds
      (fun x hx => h x (List.mem_cons_of_mem d hx))
    simpa [findDoc, List.find?_cons, hd] using ih

lemma pushEachUpsert_existing (uid : Nat) (qs : List QuoteEntry) (now : Nat) :
    ∀ db : QuoteDb, ∀ doc : QuoteDoc, findDoc db uid = some doc →
      findDoc (pushEachUpsert uid qs now db).1 uid =
        some ⟨uid, doc.quotes ++ qs, now⟩
  | [], doc, h => by simp [findDoc] at h
  | d :: ds, doc, h => by
    by_cases hd : d.userID = uid
    · have hdoc : doc = d := by
        simp [findDoc, List.find?_cons, hd] at h
        exact h.symm
      subst hdoc
      simp [pushEachUpsert, hd, findDoc, List.find?_cons]
    · have h' : findDoc ds uid = some doc := by
        simpa [findDoc, List.find?_cons, hd] using h
      have ih := pushEachUpsert_existing uid qs now ds doc h'
      simpa [pushEachUpsert, hd, findDoc, List.find?_cons] using ih

lemma getQuotes_eq_of_filter_eq (a : Nat) (db1 db2 : QuoteDb)
    (h : db1.filter (fun d => d.userID == a) = db2.filter (fun d => d.userID == a)) :
    getQuotes a db1 = getQuotes a db2 := by
  unfold getQuotes
  rw [h]

lemma authenticateToken_no_token (secret now : Nat) (h : String)
    (hs : (splitChar ' ' h)[1]? = none ∨ (splitChar ' ' h)[1]? = some "") :
    authenticateToken secret now (some h) = .deny 401 ∧
    protectedRoute secret now (some h) = ⟨401, none, false⟩ := by
  by_cases hh : h = ""
  · subst hh
    exact ⟨rfl, rfl⟩
  · have ha : authenticateToken secret now (some h) = .deny 401 := by
      rcases hs with hs | hs <;> simp [authenticateToken, hh, hs]
    exact ⟨ha, by simp [protectedRoute, ha]⟩

lemma authenticateToken_verify_fail (secret now : Nat) (h tok : String)
    (hs : (splitChar ' ' h)[1]? = some tok) (htok : tok ≠ "")
    (hv : jwtVerifyStr secret now tok = none) :
    authenticateToken secret now (some h) = .deny 403 ∧
    protectedRoute secret now (some h) = ⟨403, none, false⟩ := by
  have hh : h ≠ "" := by
    intro hh
    subst hh
    simp [splitChar, splitCharAux] at hs
  have ha : authenticateToken secret now (some h) = .deny 403 := by
    simp [authenticateToken, hh, hs, htok, hv]
  exact ⟨ha, by simp [protectedRoute, ha]⟩

lemma jwtVerifyTok_expired (secret now : Nat) (t : Token) (ht : t.exp ≤ now) :
    jwtVerifyTok secret now t = none := by
  have : ¬ now < t.exp := Nat.not_lt.mpr ht
  simp [jwtVerifyTok, this]

/-! ## Claim theorems -/

/-- Claim C10: for a user with no quote collection document, `GET /quotes`
answers 200 with the empty `quotes` array rather than an error. -/
theorem getQuotes_no_collection (uid : Nat) (db : QuoteDb)
    (h : ∀ d ∈ db, d.userID ≠ uid) :
    getQuotes uid db = ⟨200, []⟩ := by
  have hf : db.filter (fun d => d.userID == uid) = [] := by
    exact List.filter_eq_nil_iff.mpr (fun d hd => by simpa using h d hd)
  unfold getQuotes
  rw [hf]

/-- Witness for C10: a concrete store holding only another user's
collection. -/
theorem getQuotes_no_collection_witness :
    getQuotes 3 [⟨7, [⟨"fun", "Q1"⟩], 0⟩] = ⟨200, []⟩ :=
  getQuotes_no_collection 3 [⟨7, [⟨"fun", "Q1"⟩], 0⟩] (by decide)

/-- Claim C4: the collection modified by `POST /quotes` and
`DELETE /quotes` is selected solely by the client-supplied body field
`userID`, never by the middleware-verified token identity: the handlers'
results are independent of the authenticated user id, an authenticated
caller distinct from the body's `userID` still appends to that user's
collection, while `GET /quotes` depends only on the documents of the
token-derived user id. -/
theorem quotes_identity_from_body :
    (∀ a b : Nat, ∀ body : PostQuotesBody, ∀ db : QuoteDb, ∀ now : Nat,
      postQuotes a body db now = postQuotes b body db now) ∧
    (∀ a b : Nat, ∀ body : DeleteQuotesBody, ∀ db : QuoteDb, ∀ now : Nat,
      deleteQuotes a body db now = deleteQuotes b body db now) ∧
    (∀ a v : Nat, ∀ qs : List QuoteEntry, ∀ db : QuoteDb, ∀ now : Nat,
      ∀ doc : QuoteDoc, a ≠ v → findDoc db v = some doc →
        findDoc ((postQuotes a ⟨v, some qs⟩ db now).db) v =
          some ⟨v, doc.quotes ++ qs, now⟩) ∧
    (∀ a : Nat, ∀ db1 db2 : QuoteDb,
      db1.filter (fun d => d.userID == a) = db2.filter (fun d => d.userID == a) →
        getQuotes a db1 = getQuotes a db2) := by
  refine ⟨fun _ _ _ _ _ => rfl, fun _ _ _ _ _ => rfl, ?_, ?_⟩
  · intro a v qs db now doc _ hfind
    simpa [postQuotes] using pushEachUpsert_existing v qs now db doc hfind
  · intro a db1 db2 h
    exact getQuotes_eq_of_filter_eq a db1 db2 h

/-- Witness for C4: caller 1 appends to user 5's collection, caller 2's
request is indistinguishable, and `GET` for user 5 sees only user 5's
documents. -/
theorem quotes_identity_from_body_witness :
    postQuotes 1 ⟨5, some [⟨"fun", "Q2"⟩]⟩ [⟨5, [⟨"fun", "Q1"⟩], 0⟩] 9 =
      postQuotes 2 ⟨5, some [⟨"fun", "Q2"⟩]⟩ [⟨5, [⟨"fun", "Q1"⟩], 0⟩] 9 ∧
    deleteQuotes 1 ⟨5, ⟨"fun", "Q1"⟩⟩ [⟨5, [⟨"fun", "Q1"⟩], 0⟩] 9 =
      deleteQuotes 2 ⟨5, ⟨"fun", "Q1"⟩⟩ [⟨5, [⟨"fun", "Q1"⟩], 0⟩] 9 ∧
    findDoc ((postQuotes 1 ⟨5, some [⟨"fun", "Q2"⟩]⟩ [⟨5, [⟨"fun", "Q1"⟩], 0⟩] 9).db) 5 =
      some ⟨5, [⟨"fun", "Q1"⟩, ⟨"fun", "Q2"⟩], 9⟩ ∧
    getQuotes 5 [⟨5, [⟨"fun", "Q1"⟩], 0⟩] =
      getQuotes 5 [⟨5, [⟨"fun", "Q1"⟩], 0⟩, ⟨6, [⟨"work", "Q3"⟩], 2⟩] := by
  refine ⟨quotes_identity_from_body.1 1 2 _ _ _,
    quotes_identity_from_body.2.1 1 2 _ _ _, ?_, ?_⟩
  · have h := quotes_identity_from_body.2.2.1 1 5 [⟨"fun", "Q2"⟩]
      [⟨5, [⟨"fun", "Q1"⟩], 0⟩] 9 ⟨5, [⟨"fun", "Q1"⟩], 0⟩ (by decide) (by decide)
    simpa using h
  · exact quotes_identity_from_body.2.2.2 5 [⟨5, [⟨"fun", "Q1"⟩], 0⟩]
      [⟨5, [⟨"fun", "Q1"⟩], 0⟩, ⟨6, [⟨"work", "Q3"⟩], 2⟩] (by decide)

/-- Claim C3: appending two quote sequences with `POST /quotes` for a user
with no prior collection first upserts the collection holding the first
sequence and then appends the second, yielding the first sequence followed
by the second with nothing overwritten; each request issues exactly one
storage-layer operation, an atomic add-to-array push, and no read. -/
theorem postQuotes_appends (a1 a2 u : Nat) (q1 q2 : List QuoteEntry)
    (db : QuoteDb) (n1 n2 : Nat) (hfresh : ∀ d ∈ db, d.userID ≠ u) :
    (postQuotes a1 ⟨u, some q1⟩ db n1).status = 200 ∧
    (postQuotes a1 ⟨u, some q1⟩ db n1).ops = [StoreOp.pushEach u q1] ∧
    findDoc (postQuotes a1 ⟨u, some q1⟩ db n1).db u = some ⟨u, q1, n1⟩ ∧
    (postQuotes a2 ⟨u, some q2⟩ (postQuotes a1 ⟨u, some q1⟩ db n1).db n2).status = 200 ∧
    (postQuotes a2 ⟨u, some q2⟩ (postQuotes a1 ⟨u, some q1⟩ db n1).db n2).ops =
      [StoreOp.pushEach u q2] ∧
    findDoc (postQuotes a2 ⟨u, some q2⟩ (postQuotes a1 ⟨u, some q1⟩ db n1).db n2).db u =
      some ⟨u, q1 ++ q2, n2⟩ := by
  have hdb1 : (postQuotes a1 ⟨u, some q1⟩ db n1).db = db ++ [⟨u, q1, n1⟩] := by
    simp [postQuotes, pushEachUpsert_fresh u q1 n1 db hfresh]
  have hfind1 : findDoc (postQuotes a1 ⟨u, some q1⟩ db n1).db u = some ⟨u, q1, n1⟩ := by
    rw [hdb1]
    exact findDoc_append_fresh u ⟨u, q1, n1⟩ rfl db hfresh
  refine ⟨rfl, rfl, hfind1, rfl, rfl, ?_⟩
  simpa [postQuotes] using
    pushEachUpsert_existing u q2 n2 (postQuotes a1 ⟨u, some q1⟩ db n1).db ⟨u, q1, n1⟩ hfind1

/-- Witness for C3: two concrete appends for user 5 starting from an
unrelated store. -/
theorem postQuotes_appends_witness :
    findDoc (postQuotes 2 ⟨5, some [⟨"c", "B"⟩]⟩
      (postQuotes 1 ⟨5, some [⟨"c", "A"⟩]⟩ [⟨9, [], 0⟩] 3).db 4).db 5 =
      some ⟨5, [⟨"c", "A"⟩, ⟨"c", "B"⟩], 4⟩ :=
  (postQuotes_appends 1 2 5 [⟨"c", "A"⟩] [⟨"c", "B"⟩] [⟨9, [], 0⟩] 3 4
    (by decide)).2.2.2.2.2

/-- Claim C1 (code bug evaluation): with a stored collection for user 7
holding only `(fun, Q1)`, deleting the non-matching pair `(work, Q2)` at a
later clock time answers 200 `Quote deleted successfully` — not the 404
the claim and the handler's own comment intend — because the `$set` of
`updatedAt` in the same update makes `modifiedCount` 1 whenever the user's
document exists; the `quotes` array itself is left unchanged. -/
theorem deleteQuotes_nonmatching_bug :
    deleteQuotes 9 ⟨7, ⟨"work", "Q2"⟩⟩ [⟨7, [⟨"fun", "Q1"⟩], 0⟩] 1 =
      ⟨200, "Quote deleted successfully", [⟨7, [⟨"fun", "Q1"⟩], 1⟩],
        [StoreOp.pullMatch 7 ⟨"work", "Q2"⟩]⟩ := by
  decide

/-- Claim C7 counterexample: the request `POST /ai/quote` issues for the
concrete category `Motivation` carries no output-length bound at all
(`max_tokens` is absent), refuting the claimed bounded output-length
request. -/
theorem aiQuote_no_output_bound :
    ¬ (∀ r ∈ (aiQuote (fun _ => "Stay hungry.") (some "Motivation")).requests,
        r.maxTokens.isSome = true) := by
  decide

/-- Claim C7 as amended: a missing `category` yields 400; otherwise the
handler invokes the external text-generation service exactly once with the
single fixed instruction `Generate an inspirational quote about
{category}` — with no explicit output-length bound — and returns the
produced text unmodified in the response body. -/
theorem aiQuote_fixed_instruction (llm : ChatRequest → String) (c : String)
    (hc : c ≠ "") :
    (aiQuote llm none).status = 400 ∧
    (aiQuote llm (some c)).requests =
      [⟨"gpt-4o-mini", "Generate an inspirational quote about " ++ c, none⟩] ∧
    (aiQuote llm (some c)).status = 200 ∧
    (aiQuote llm (some c)).quote =
      some (llm ⟨"gpt-4o-mini", "Generate an inspirational quote about " ++ c, none⟩) := by
  refine ⟨rfl, ?_, ?_, ?_⟩ <;> simp [aiQuote, hc]

/-- Witness for C7 (amended): the concrete category `Motivation` with an
external service answering a fixed text. -/
theorem aiQuote_fixed_instruction_witness :
    (aiQuote (fun r => r.content) (some "Motivation")).status = 200 ∧
    (aiQuote (fun r => r.content) (some "Motivation")).quote =
      some ("Generate an inspirational quote about Motivation") := by
  have h := aiQuote_fixed_instruction (fun r => r.content) "Motivation" (by decide)
  exact ⟨h.2.2.1, h.2.2.2⟩

/-- Claim C9: on a bearer-protected route, a request with no
`Authorization` header (or an empty one, or one with no token after the
first word) is answered 401; a request whose token fails verification
(malformed, bad signature, or expired) is answered 403; in every such case
the route handler behind the middleware never runs. -/
theorem auth_middleware_rejections (secret now : Nat) :
    (authenticateToken secret now none = .deny 401 ∧
     protectedRoute secret now none = ⟨401, none, false⟩) ∧
    (∀ h : String,
      ((splitChar ' ' h)[1]? = none ∨ (splitChar ' ' h)[1]? = some "") →
      authenticateToken secret now (some h) = .deny 401 ∧
      protectedRoute secret now (some h) = ⟨401, none, false⟩) ∧
    (∀ h tok : String, (splitChar ' ' h)[1]? = some tok → tok ≠ "" →
      jwtVerifyStr secret now tok = none →
      authenticateToken secret now (some h) = .deny 403 ∧
      protectedRoute secret now (some h) = ⟨403, none, false⟩) := by
  refine ⟨⟨rfl, rfl⟩, ?_, ?_⟩
  · intro h hs
    exact authenticateToken_no_token secret now h hs
  · intro h tok hs htok hv
    exact authenticateToken_verify_fail secret now h tok hs htok hv

/-- Witness for C9: a missing header, a header with no token after
`Bearer`, and a syntactically valid but wrongly signed token. -/
theorem auth_middleware_rejections_witness :
    protectedRoute 5 0 none = ⟨401, none, false⟩ ∧
    protectedRoute 5 0 (some ("Bearer")) = ⟨401, none, false⟩ ∧
    protectedRoute 5 0 (some ("Bearer 3.0.9.4")) = ⟨403, none, false⟩ :=
  ⟨(auth_middleware_rejections 5 0).1.2,
   ((auth_middleware_rejections 5 0).2.1 ("Bearer") (by decide)).2,
   ((auth_middleware_rejections 5 0).2.2 ("Bearer 3.0.9.4") ("3.0.9.4")
     (by decide) (by decide) (by decide)).2⟩

/-- Claim C8: every issued token's expiry is its issue time plus the fixed
3600-second TTL; verification rejects any token whose expiry has elapsed,
even one whose signature is valid; and a request to a protected route
carrying an expired token is answered 403 without the handler running. -/
theorem token_expiry_enforced :
    (∀ secret iat uid : Nat, (jwtSign secret iat uid).exp = iat + 3600) ∧
    (∀ secret now : Nat, ∀ t : Token, t.exp ≤ now →
      jwtVerifyTok secret now t = none) ∧
    (∀ secret now : Nat, ∀ h tok : String, ∀ t : Token,
      (splitChar ' ' h)[1]? = some tok → tok ≠ "" →
      decodeToken tok = some t → t.exp ≤ now →
      authenticateToken secret now (some h) = .deny 403 ∧
      protectedRoute secret now (some h) = ⟨403, none, false⟩) := by
  refine ⟨fun _ _ _ => rfl, jwtVerifyTok_expired, ?_⟩
  intro secret now h tok t hs htok hdec ht
  have hv : jwtVerifyStr secret now tok = none := by
    simp [jwtVerifyStr, hdec, jwtVerifyTok_expired secret now t ht]
  exact authenticateToken_verify_fail secret now h tok hs htok hv

/-- Witness for C8: the token `0.0.1.1` is validly signed under secret 0
(its signature equals `macSig 0 0 0 1`) but has expired by time 1, and the
protected route answers 403 without running its handler. -/
theorem token_expiry_enforced_witness :
    (jwtSign 0 0 4).exp = 3600 ∧
    jwtVerifyTok 0 1 ⟨0, 0, 1, 1⟩ = none ∧
    protectedRoute 0 1 (some ("Bearer 0.0.1.1")) = ⟨403, none, false⟩ :=
  ⟨token_expiry_enforced.1 0 0 4,
   token_expiry_enforced.2.1 0 1 ⟨0, 0, 1, 1⟩ (by decide),
   (token_expiry_enforced.2.2 0 1 ("Bearer 0.0.1.1") ("0.0.1.1") ⟨0, 0, 1, 1⟩
     (by decide) (by decide) (by decide) (by decide)).2⟩

/-- Claim C5: logging in with a stored user's email and correct password
answers 200 with a token that verification accepts and that decodes to
that user's identifier; logging in with the stored email but a wrong
password answers 401 with no token in the response. -/
theorem login_correct_and_wrong_password (bhash : String → String)
    (secret now : Nat) (db : UserDb) (e pw pw' : String) (u : UserRec)
    (hf : db.find? (fun x => x.email == e) = some u)
    (hp : u.password = bhash pw) :
    ((login bhash secret now db e pw).status = 200 ∧
     (login bhash secret now db e pw).token = some (jwtSign secret now u.id) ∧
     (jwtSign secret now u.id).userId = u.id ∧
     jwtVerifyTok secret now (jwtSign secret now u.id) = some u.id) ∧
    (bhash pw' ≠ u.password →
     (login bhash secret now db e pw').status = 401 ∧
     (login bhash secret now db e pw').token = none) := by
  constructor
  · have hcmp : bcryptCompare bhash pw u.password = true := by
      simp [bcryptCompare, hp]
    refine ⟨?_, ?_, rfl, ?_⟩
    · simp [login, hf, hcmp]
    · simp [login, hf, hcmp]
    · simp [jwtVerifyTok, jwtSign]
  · intro hw
    have hcmp : bcryptCompare bhash pw' u.password = false := by
      simp [bcryptCompare]
      exact fun hcontra => hw hcontra.symm
    constructor <;> simp [login, hf, hcmp]

/-- Witness for C5: a concrete user whose stored password is the hash of
`pw`, logged in with `pw` and with the wrong `xx`. -/
theorem login_correct_and_wrong_password_witness :
    ((login (fun s => "#" ++ s) 5 0 [⟨3, "a@x.com", "#pw"⟩] "a@x.com" "pw").status = 200 ∧
     jwtVerifyTok 5 0 (jwtSign 5 0 3) = some 3) ∧
    ((login (fun s => "#" ++ s) 5 0 [⟨3, "a@x.com", "#pw"⟩] "a@x.com" "xx").status = 401 ∧
     (login (fun s => "#" ++ s) 5 0 [⟨3, "a@x.com", "#pw"⟩] "a@x.com" "xx").token = none) := by
  have h := login_correct_and_wrong_password (fun s => "#" ++ s) 5 0
    [⟨3, "a@x.com", "#pw"⟩] "a@x.com" "pw" "xx" ⟨3, "a@x.com", "#pw"⟩
    (by decide) (by decide)
  exact ⟨⟨h.1.1, h.1.2.2.2⟩, h.2 (by decide)⟩

lemma find?_email_none (db : UserDb) (e : String)
    (hfresh : ∀ u ∈ db, u.email ≠ e) :
    db.find? (fun u => u.email == e) = none :=
  List.find?_eq_none.mpr (fun x hx => by simpa using hfresh x hx)

/-- Claim C6: a valid signup (fresh email) creates exactly one User
record, whose stored password field is the bcrypt hash of the plaintext;
under bcrypt's one-way property (no plaintext is its own hash) the stored
field never equals the plaintext supplied in the request. -/
theorem signup_stores_hash (bhash : String → String) (secret now nid : Nat)
    (db : UserDb) (e pw : String) (hfresh : ∀ u ∈ db, u.email ≠ e) :
    (signup bhash secret now nid db e pw).status = 201 ∧
    (signup bhash secret now nid db e pw).db = db ++ [⟨nid, e, bhash pw⟩] ∧
    ((∀ p, bhash p ≠ p) → (UserRec.mk nid e (bhash pw)).password ≠ pw) := by
  have hnone := find?_email_none db e hfresh
  exact ⟨by simp [signup, hnone], by simp [signup, hnone], fun hone => hone pw⟩

/-- Witness for C6: a concrete signup with a hash function that puts a
salt marker in front of the plaintext, so no input is its own hash. -/
theorem signup_stores_hash_witness :
    (signup (fun s => "#" ++ s) 5 0 3 [] "a@x.com" "pw").status = 201 ∧
    (signup (fun s => "#" ++ s) 5 0 3 [] "a@x.com" "pw").db =
      [⟨3, "a@x.com", "#pw"⟩] ∧
    (UserRec.mk 3 "a@x.com" ("#" ++ "pw")).password ≠ "pw" := by
  have hone : ∀ p : String, "#" ++ p ≠ p := by
    intro p hp
    have hlen : ("#" ++ p).length = p.length := by rw [hp]
    rw [String.length_append] at hlen
    have h1 : "#".length = 1 := rfl
    omega
  have h := signup_stores_hash (fun s => "#" ++ s) 5 0 3 [] "a@x.com" "pw"
    (by simp)
  exact ⟨h.1, by simpa using h.2.1, h.2.2 hone⟩

lemma signup_preserves_distinct (bhash : String → String)
    (secret now nid : Nat) (db : UserDb) (e p : String)
    (h : distinctEmails db) :
    distinctEmails (signup bhash secret now nid db e p).db := by
  cases hf : db.find? (fun u => u.email == e) with
  | some u => simpa [signup, hf] using h
  | none =>
    have he : e ∉ db.map (fun u => u.email) := by
      intro hmem
      rcases List.mem_map.mp hmem with ⟨u, hu, hue⟩
      have hne : u.email ≠ e := by simpa using List.find?_eq_none.mp hf u hu
      exact hne hue
    have : distinctEmails (db ++ [⟨nid, e, bhash p⟩]) := by
      unfold distinctEmails at h ⊢
      rw [List.map_append, List.nodup_append]
      exact ⟨h, by simp, by simpa [List.disjoint_singleton] using he⟩
    simpa [signup, hf] using this

lemma runSignups_preserves_distinct (bhash : String → String)
    (secret now : Nat) :
    ∀ reqs : List (String × String), ∀ db : UserDb, ∀ nid : Nat,
      distinctEmails db →
      distinctEmails (runSignups bhash secret now (db, nid) reqs).1
  | [], _, _, h => h
  | (e, p) :: rs, db, nid, h => by
    unfold runSignups
    exact runSignups_preserves_distinct bhash secret now rs _ _
      (signup_preserves_distinct bhash secret now nid db e p h)

/-- Claim C2: signing up twice with the same email succeeds the first time
(201) and fails the second with status 400 while the first user record and
the whole store are untouched; and any sequence of signups preserves the
invariant that no two stored users share an email. -/
theorem signup_duplicate_email (bhash : String → String) (secret : Nat) :
    (∀ db : UserDb, ∀ e p1 p2 : String, ∀ t1 t2 n1 n2 : Nat,
      (∀ u ∈ db, u.email ≠ e) →
      (signup bhash secret t1 n1 db e p1).status = 201 ∧
      (signup bhash secret t2 n2 (signup bhash secret t1 n1 db e p1).db e p2).status = 400 ∧
      (signup bhash secret t2 n2 (signup bhash secret t1 n1 db e p1).db e p2).db =
        (signup bhash secret t1 n1 db e p1).db ∧
      (UserRec.mk n1 e (bhash p1)) ∈
        (signup bhash secret t2 n2 (signup bhash secret t1 n1 db e p1).db e p2).db) ∧
    (∀ now : Nat, ∀ reqs : List (String × String), ∀ db : UserDb, ∀ nid : Nat,
      distinctEmails db →
      distinctEmails (runSignups bhash secret now (db, nid) reqs).1) := by
  constructor
  · intro db e p1 p2 t1 t2 n1 n2 hfresh
    have hnone := find?_email_none db e hfresh
    have hdb1 : (signup bhash secret t1 n1 db e p1).db =
        db ++ [⟨n1, e, bhash p1⟩] := by
      simp [signup, hnone]
    have hfind1 : (db ++ [(⟨n1, e, bhash p1⟩ : UserRec)]).find?
        (fun u => u.email == e) = some ⟨n1, e, bhash p1⟩ := by
      rw [List.find?_append, hnone]
      simp
    refine ⟨by simp [signup, hnone], ?_, ?_, ?_⟩
    · rw [hdb1]
      simp [signup, hfind1]
    · rw [hdb1]
      simp [signup, hfind1]
    · rw [hdb1]
      simp [signup, hfind1]
  · exact fun now reqs db nid h =>
      runSignups_preserves_distinct bhash secret now reqs db nid h

/-- Witness for C2: two concrete signups with the same email, and a
concrete request sequence with a repeated email keeping emails distinct. -/
theorem signup_duplicate_email_witness :
    (signup (fun s => "#" ++ s) 5 1 1 [] "a@x.com" "p1").status = 201 ∧
    (signup (fun s => "#" ++ s) 5 2 2
      (signup (fun s => "#" ++ s) 5 1 1 [] "a@x.com" "p1").db "a@x.com" "p2").status = 400 ∧
    distinctEmails (runSignups (fun s => "#" ++ s) 5 0
      ([], 0) [("a@x.com", "p1"), ("a@x.com", "p2"), ("b@x.com", "p3")]).1 := by
  have h := (signup_duplicate_email (fun s => "#" ++ s) 5).1 [] "a@x.com"
    "p1" "p2" 1 2 1 2 (by simp)
  refine ⟨h.1, h.2.1, ?_⟩
  exact (signup_duplicate_email (fun s => "#" ++ s) 5).2 0
    [("a@x.com", "p1"), ("a@x.com", "p2"), ("b@x.com", "p3")] [] 0
    (by simp [distinctEmails])
